import Mathlib

/-!
Verification development for the MedVerify repository (three Python modules:
`medgemma_analyzer.py`, `pubmed_search.py`, `app.py`).

Strings are shallowly embedded as `List Char`.  Python's `str.strip` /
`\s` whitespace class is modelled by its ASCII fragment, `re.findall(r'\d+')`
by maximal runs of ASCII digits, and `str.splitlines` by the line
terminators `\n`, `\r\n`, `\r` (the exotic Unicode terminators play no role
in any claim).  Effects (network calls, the generation thread) are modelled
by passing the external world's answers as explicit arguments; exception
paths become `Option`/`Except` values.
-/

set_option maxRecDepth 8192
set_option linter.unnecessarySeqFocus false

namespace MedVerify

/-- Abbreviation turning a Lean string literal into the `List Char` representation. -/
def S (s : String) : List Char := s.toList

/-- Whitespace recognised by Python's `str.strip` and the regex class `\s` (ASCII fragment). -/
def isSpacePy (c : Char) : Bool :=
  c == ' ' || c == '\t' || c == '\n' || c == '\r' || c == '\x0b' || c == '\x0c'

/-- Python `s.lstrip()`. -/
def ltrim (s : List Char) : List Char := s.dropWhile isSpacePy

/-- Python `s.strip()`: drop whitespace from both ends. -/
def trim (s : List Char) : List Char :=
  ((ltrim s).reverse.dropWhile isSpacePy).reverse

/-- Python `s.lower()` (ASCII case folding, which is all the analyzer compares). -/
def lowerStr (s : List Char) : List Char := s.map Char.toLower

/-- Python substring test `needle in hay`. -/
def containsSub (needle : List Char) : List Char → Bool
  | [] => needle.isPrefixOf ([] : List Char)
  | c :: rest => needle.isPrefixOf (c :: rest) || containsSub needle rest

/-- Python `x or y` specialised to strings: `y` when `x` is empty (falsy), else `x`. -/
def pyOr (x y : List Char) : List Char := if x = [] then y else x

/-- Python `sep.join(xs)`. -/
def joinSep (sep : List Char) : List (List Char) → List Char
  | [] => []
  | [x] => x
  | x :: y :: xs => x ++ sep ++ joinSep sep (y :: xs)

/-- Normalise the line terminators `\r\n` and `\r` to `\n`
(the terminators `str.splitlines` recognises that occur in this program). -/
def normNl : List Char → List Char
  | [] => []
  | '\r' :: '\n' :: rest => '\n' :: normNl rest
  | '\r' :: rest => '\n' :: normNl rest
  | c :: rest => c :: normNl rest

/-- Python `s.splitlines()`: split at terminators, no trailing empty line. -/
def splitlines (s : List Char) : List (List Char) :=
  let t := normNl s
  if t = [] then []
  else
    let parts := t.splitOn '\n'
    if parts.getLast? = some [] then parts.dropLast else parts

/-- Accumulator pass behind `digitRuns`. -/
def digitRunsAux (cur : List Char) : List Char → List (List Char)
  | [] => if cur = [] then [] else [cur.reverse]
  | c :: rest =>
      if c.isDigit then digitRunsAux (c :: cur) rest
      else if cur = [] then digitRunsAux [] rest
      else cur.reverse :: digitRunsAux [] rest

/-- `re.findall(r'\d+', s)`: the maximal runs of decimal digits of `s`, in order. -/
def digitRuns (s : List Char) : List (List Char) := digitRunsAux [] s

/-- Python `int` on a run of decimal digits. -/
def digitsToNat (ds : List Char) : Nat :=
  ds.foldl (fun acc c => 10 * acc + (c.toNat - 48)) 0

/-- The `for token in re.findall(...)` loop body of `extract_score`:
first token whose value is at most 100 (values are unsigned, so `0 <=` is automatic),
default 50. -/
def scoreLoop : List (List Char) → Nat
  | [] => 50
  | t :: rest => if digitsToNat t ≤ 100 then digitsToNat t else scoreLoop rest

/-- `extract_score` from `medgemma_analyzer.py`. -/
def extract_score (score_text : List Char) : Nat :=
  scoreLoop (digitRuns score_text)

/-- The bracketed marker `[tag]` of a section tag. -/
def tagToken (tag : List Char) : List Char := '[' :: (tag ++ [']'])

/-- Scan for a `]` (the tail of the lookahead `\[[^\]]+\]`: the first `]` found
closes the bracket, everything before it being non-`]` by construction). -/
def closeTail : List Char → Bool
  | [] => false
  | c :: rest => if c = ']' then true else closeTail rest

/-- After an opening `[`: at least one non-`]` character and then a `]`. -/
def closeAfterOne : List Char → Bool
  | [] => false
  | c :: rest => if c = ']' then false else closeTail rest

/-- Does a complete bracketed tag `\[[^\]]+\]` start here?  This is the lookahead
of the `extract_section` regex. -/
def bracketAt : List Char → Bool
  | [] => false
  | c :: rest => c == '[' && closeAfterOne rest

/-- Characters up to (exclusive) the first position where a complete bracketed
tag starts: the lazy capture `(.*?)(?=\[[^\]]+\]|$)` of `extract_section`
(with `re.DOTALL`; the `$`-before-final-newline subtlety is erased by the
subsequent `strip`). -/
def takeUntilTagStart : List Char → List Char
  | [] => []
  | c :: rest => if bracketAt (c :: rest) then [] else c :: takeUntilTagStart rest

/-- The suffix of `text` after the first occurrence of `pat`
(`re.search` locates the leftmost occurrence of the escaped literal `[tag]`;
the remainder of the pattern always matches, `$` accepting at end of text). -/
def extractAfter (pat : List Char) : List Char → Option (List Char)
  | [] => if pat.isEmpty then some [] else none
  | c :: rest =>
      if pat.isPrefixOf (c :: rest) then some ((c :: rest).drop pat.length)
      else extractAfter pat rest

/-- `extract_section` from `medgemma_analyzer.py`:
`re.search(rf'\[{re.escape(tag)}\]\s*(.*?)(?=\[[^\]]+\]|$)', text, re.DOTALL)`,
returning the stripped capture, or `""` when the tag marker is absent.
The greedy `\s*` is absorbed into the capture here: it only skips whitespace,
which the final `strip` removes again, and no lookahead position can occur
inside a whitespace run (a bracketed tag starts with `[`). -/
def extract_section (text tag : List Char) : List Char :=
  match extractAfter (tagToken tag) text with
  | none => []
  | some rest => trim (takeUntilTagStart rest)

/-- The bullet glyphs recognised by `extract_list_items` (`-`, `•`, `·`, `*`). -/
def bulletChar (c : Char) : Bool := c == '-' || c == '•' || c == '·' || c == '*'

/-- The characters removed by `line.lstrip('-•·* ')`. -/
def bulletStripChar (c : Char) : Bool := bulletChar c || c == ' '

/-- The negation sentinels `("none", "n/a", "na")`. -/
def sentinelStrs : List (List Char) := [S "none", S "n/a", S "na"]

/-- One iteration of the line loop of `extract_list_items`: the item contributed
by `line`, if any. -/
def lineItem (line : List Char) : Option (List Char) :=
  let l := trim line
  if (match l with | c :: _ => bulletChar c | [] => false) then
    let cleaned := trim (l.dropWhile bulletStripChar)
    if cleaned ≠ [] ∧ lowerStr cleaned ∉ sentinelStrs then some cleaned else none
  else none

/-- `extract_list_items` from `medgemma_analyzer.py`. -/
def extract_list_items (section_text : List Char) : List (List Char) :=
  let items := (splitlines section_text).filterMap lineItem
  if items = [] ∧ trim section_text ≠ [] ∧ lowerStr (trim section_text) ∉ sentinelStrs then
    [trim section_text]
  else items

/-- The risk-level resolution loop of `parse_model_output`:
first of `Safe`, `Misleading`, `Dangerous` occurring case-insensitively as a
substring of the risk-level section, default `Misleading`. -/
def riskLevelOf (risk_level_text : List Char) : List Char :=
  if containsSub (lowerStr (S "Safe")) (lowerStr risk_level_text) then S "Safe"
  else if containsSub (lowerStr (S "Misleading")) (lowerStr risk_level_text) then S "Misleading"
  else if containsSub (lowerStr (S "Dangerous")) (lowerStr risk_level_text) then S "Dangerous"
  else S "Misleading"

/-- The structured result dict of `parse_model_output`.  The Python dict on the
success path simply omits the `_parse_error` key; its consumer (`app.py`) reads
it with `result.get("_parse_error")`, so the absent key is observationally
`false`, which is how it is modelled here. -/
structure AnalysisResult where
  credibility_score : Nat
  risk_level : List Char
  risk_reason : List Char
  medical_accuracy : List Char
  logical_fallacies : List (List Char)
  evidence_summary : List Char
  key_misconceptions : List (List Char)
  rebuttal : List Char
  recommendation : List Char
  parse_error : Bool
  raw_output : List Char
deriving DecidableEq

/-- The fixed all-defaults record `parse_model_output` returns when the raw
text is empty or whitespace-only. -/
def failureResult : AnalysisResult where
  credibility_score := 0
  risk_level := S "Misleading"
  risk_reason := S "Model produced no output; check HF token and GPU memory."
  medical_accuracy := S "Analysis failed; please try again."
  logical_fallacies := []
  evidence_summary := S "Please verify against medical literature manually."
  key_misconceptions := []
  rebuttal := S "This claim needs further verification; consult a healthcare professional."
  recommendation := S "For health-related information, consult a qualified healthcare provider."
  parse_error := true
  raw_output := S "(empty)"

/-- `parse_model_output` from `medgemma_analyzer.py`. -/
def parse_model_output (raw_text : List Char) : AnalysisResult :=
  if raw_text = [] ∨ trim raw_text = [] then failureResult
  else
    let score_text := extract_section raw_text (S "Credibility Score")
    let risk_level_text := extract_section raw_text (S "Risk Level")
    let risk_reason := extract_section raw_text (S "Risk Reason")
    let medical_acc := extract_section raw_text (S "Medical Accuracy")
    let fallacies_text := extract_section raw_text (S "Logical Fallacies")
    let evidence := extract_section raw_text (S "Evidence Summary")
    let misconceptions := extract_section raw_text (S "Key Misconceptions")
    let rebuttal := extract_section raw_text (S "Scientific Rebuttal")
    let recommendation := extract_section raw_text (S "Expert Recommendation")
    { credibility_score := extract_score score_text
      risk_level := riskLevelOf risk_level_text
      risk_reason := pyOr risk_reason (S "Not provided")
      medical_accuracy := pyOr medical_acc (raw_text.take 500)
      logical_fallacies := extract_list_items fallacies_text
      evidence_summary := pyOr evidence (S "No evidence description found")
      key_misconceptions := extract_list_items misconceptions
      rebuttal := pyOr rebuttal (S "Consult a healthcare professional for more information.")
      recommendation := pyOr recommendation
        (S "For health-related information, consult a qualified healthcare provider.")
      parse_error := false
      raw_output := raw_text }

/-- `analyze_health_claim_stream` from `medgemma_analyzer.py`.  The whole
generation machinery (model load, chat-template application, streamer, the
background `model.generate` thread, the yield loop and the final join) is
abstracted as the oracle `gen`, which maps the stripped claim embedded in the
user message to the list of streamed fragments.  The returned `Bool` records
whether that machinery was started at all; the `ValueError` raised on an
empty or whitespace-only claim is the `Except.error` value, produced before
any generation work. -/
def analyze_health_claim_stream (gen : List Char → List (List Char))
    (health_claim : List Char) : Except (List Char) (List (List Char)) × Bool :=
  if health_claim = [] ∨ trim health_claim = [] then
    (Except.error (S "Health claim cannot be empty"), false)
  else
    (Except.ok (gen (trim health_claim)), true)

/-!
XML data model for `pubmed_search.py`.  An element has a tag, optional text
content and a list of children (represented by the mutually inductive
`XForest` so that every recursion below is structural and kernel-reducible).
Element tails are not modelled: the PubMed fields read here are leaf-ish
text fields, where tails play no role.
-/

mutual

inductive XElem : Type where
  | mk : List Char → Option (List Char) → XForest → XElem

inductive XForest : Type where
  | nil : XForest
  | cons : XElem → XForest → XForest

end

/-- Tag name of an element. -/
def XElem.tag : XElem → List Char
  | .mk t _ _ => t

/-- `element.text` (Python: `None` when the element has no text). -/
def XElem.text : XElem → Option (List Char)
  | .mk _ x _ => x

/-- Child elements. -/
def XElem.children : XElem → XForest
  | .mk _ _ c => c

/-- Build a forest from a list of elements (for writing concrete documents). -/
def xf : List XElem → XForest
  | [] => .nil
  | e :: es => .cons e (xf es)

mutual

/-- `"".join(el.itertext())`: all text content of the subtree, in document order. -/
def itertext : XElem → List Char
  | .mk _ x c => x.getD [] ++ itertextF c

/-- `itertext` over a forest. -/
def itertextF : XForest → List Char
  | .nil => []
  | .cons e es => itertext e ++ itertextF es

end

mutual

/-- `element.findall(".//name")`: all proper descendants with the given tag,
in document order (pre-order). -/
def descendantsNamed (name : List Char) : XElem → List XElem
  | .mk _ _ c => descendantsNamedF name c

/-- `descendantsNamed` over a forest. -/
def descendantsNamedF (name : List Char) : XForest → List XElem
  | .nil => []
  | .cons e es =>
      (if e.tag = name then [e] else []) ++ descendantsNamed name e ++ descendantsNamedF name es

end

/-- First child with the given tag (`element.find("name")` for a plain child path). -/
def childNamed (name : List Char) : XForest → Option XElem
  | .nil => none
  | .cons e es => if e.tag = name then some e else childNamed name es

/-- All children with the given tag, in order. -/
def childrenNamed (name : List Char) : XForest → List XElem
  | .nil => []
  | .cons e es => (if e.tag = name then [e] else []) ++ childrenNamed name es

/-- `element.findtext("name", default)` for a plain child path: text of the first
matching child, the empty string when that child has no text, `default` when
there is no such child. -/
def findtextChild (e : XElem) (name dflt : List Char) : List Char :=
  match childNamed name e.children with
  | none => dflt
  | some c => (c.text).getD []

/-- The elements matched by the path `.//n1/n2`: for each descendant named `n1`
(document order), its children named `n2`. -/
def pathMatches (root : XElem) (n1 n2 : List Char) : List XElem :=
  (descendantsNamed n1 root).foldr (fun p acc => childrenNamed n2 p.children ++ acc) []

/-- `element.findtext(".//n1/n2", default)`. -/
def findtextPath (root : XElem) (n1 n2 dflt : List Char) : List Char :=
  match (pathMatches root n1 n2).head? with
  | none => dflt
  | some el => (el.text).getD []

/-- `element.findtext(".//n1/n2")` with no default: Python returns `None` when
nothing matches, and the (possibly empty) text otherwise.  Both `None` and `""`
are falsy in the consuming `or` chain, so they collapse to `[]` here. -/
def findtextPathOrEmpty (root : XElem) (n1 n2 : List Char) : List Char :=
  match (pathMatches root n1 n2).head? with
  | none => []
  | some el => (el.text).getD []

/-- One article record produced by `parse_pubmed_xml`.  `pmid` keeps Python's
exact value: `some []` when the `PMID` element is absent (`""`), `none` when it
is present without text (`None`), `some p` otherwise. -/
structure Article where
  title : List Char
  authors : List Char
  journal : List Char
  year : List Char
  pmid : Option (List Char)
  abstract : List Char
  url : List Char
deriving DecidableEq

/-- One iteration of the author loop: the formatted name contributed by an
`Author` element, present exactly when `LastName` is non-empty. -/
def authorName (a : XElem) : Option (List Char) :=
  let last := findtextChild a (S "LastName") []
  let initials := findtextChild a (S "Initials") []
  if last ≠ [] then some (trim (last ++ [' '] ++ initials)) else none

/-- The per-record body of the `for article in root.findall(".//PubmedArticle")`
loop of `parse_pubmed_xml`.  Every lookup is total (each has a default or a
`None` check), so the `except: continue` guard of the source can never fire:
this function is the whole loop body.  The dead first assignment to `title`
(`title_el.text`) is immediately overwritten in the source and is not modelled. -/
def parseArticle (article : XElem) : Article :=
  let title :=
    match (descendantsNamed (S "ArticleTitle") article).head? with
    | some el => itertext el
    | none => S "N/A"
  let auths := descendantsNamed (S "Author") article
  let names := (auths.take 3).filterMap authorName
  let names2 := if 3 < auths.length then names ++ [S "et al."] else names
  let journal := findtextPath article (S "Journal") (S "Title") (S "Unknown Journal")
  let year :=
    pyOr (findtextPathOrEmpty article (S "PubDate") (S "Year"))
      (pyOr ((findtextPath article (S "PubDate") (S "MedlineDate") []).take 4) (S "N/A"))
  let pmid : Option (List Char) :=
    match (descendantsNamed (S "PMID") article).head? with
    | some el => el.text
    | none => some []
  let ab := (joinSep [' '] ((descendantsNamed (S "AbstractText") article).map itertext)).take 300
  let abstract := if ab.length = 300 then ab ++ S "..." else ab
  { title := title
    authors := if names2 = [] then S "Unknown" else joinSep (S ", ") names2
    journal := journal
    year := year
    pmid := pmid
    abstract := abstract
    url :=
      match pmid with
      | some p => if p ≠ [] then S "https://pubmed.ncbi.nlm.nih.gov/" ++ p ++ S "/" else []
      | none => [] }

/-- `parse_pubmed_xml` from `pubmed_search.py`.  `none` models bytes on which
`ET.fromstring` raises `ParseError` (the function then returns the empty list). -/
def parse_pubmed_xml (doc : Option XElem) : List Article :=
  match doc with
  | none => []
  | some root => (descendantsNamed (S "PubmedArticle") root).map parseArticle

/-- The external world of `search_pubmed`: `esearch` is the PMID list delivered
by the id-search phase (`none` models any exception there — network failure or
JSON parse failure — and also absorbs the `.get(...)` defaults); `efetch` maps
the PMID batch to the detail-fetch response (`none` models a network exception,
`some none` a body `ET.fromstring` cannot parse, `some (some root)` a parsed
document). -/
structure PubmedWorld where
  esearch : Option (List (List Char))
  efetch : List (List Char) → Option (Option XElem)

/-- `search_pubmed` from `pubmed_search.py`, over an explicit world.  The
returned `Bool` records whether the detail-fetch call (phase 2, after the
rate-limit sleep) was made at all. -/
def search_pubmed_run (w : PubmedWorld) : List Article × Bool :=
  match w.esearch with
  | none => ([], false)
  | some pmid_list =>
    if pmid_list = [] then ([], false)
    else
      match w.efetch pmid_list with
      | none => ([], true)
      | some doc => (parse_pubmed_xml doc, true)

/-!
Spec-worded twin definitions, used only to settle refinement-style claims by
comparison with the source-derived definitions above.
-/

/-- Modelled from the spec's words for the score sub-extraction: scan the
integer tokens in encounter order, return the first whose value falls within
`[0,100]` (tokens are unsigned digit runs, so only the upper bound binds),
default 50 if none is in range. -/
def extract_score_spec (s : List Char) : Nat :=
  (((digitRuns s).map digitsToNat).find? (fun v => decide (v ≤ 100))).getD 50

/-- Stripped lines of a section that begin with a recognised bullet glyph. -/
def bulletLines (s : List Char) : List (List Char) :=
  ((splitlines s).map trim).filter (fun l => match l with | c :: _ => bulletChar c | [] => false)

/-- Marker-and-whitespace stripping of one bulleted line. -/
def cleanItem (l : List Char) : List Char := trim (l.dropWhile bulletStripChar)

/-- Modelled from the (amended) spec words for list sub-extraction: keep the
bulleted lines, strip marker and whitespace, discard empty and sentinel items;
only when no item survived and the trimmed section is non-empty and
non-sentinel, the whole trimmed section is the single implicit item. -/
def extract_list_items_spec (s : List Char) : List (List Char) :=
  let survivors :=
    ((bulletLines s).map cleanItem).filter (fun c => ¬(c = [] ∨ lowerStr c ∈ sentinelStrs))
  if survivors = [] ∧ trim s ≠ [] ∧ lowerStr (trim s) ∉ sentinelStrs then [trim s]
  else survivors

/-- The `LastName` child text of an `Author` element (empty default). -/
def surnameOf (a : XElem) : List Char := findtextChild a (S "LastName") []

/-- The formatted `"Surname Initials"` name of an `Author` element. -/
def formattedName (a : XElem) : List Char :=
  trim (surnameOf a ++ [' '] ++ findtextChild a (S "Initials") [])

/-- Spec-worded author-field computation: among the first 3 `Author` elements,
those with a non-empty `LastName` contribute their formatted name; the
`"et al."` marker is appended exactly when more than 3 `Author` elements exist;
the field is `"Unknown"` exactly when the resulting list is empty. -/
def authorsSpec (auths : List XElem) : List Char :=
  let names := ((auths.take 3).filter (fun a => surnameOf a ≠ [])).map formattedName
  let withMark := names ++ (if 3 < auths.length then [S "et al."] else [])
  if withMark = [] then S "Unknown" else joinSep (S ", ") withMark

/-!
Side conditions and assembly helpers for the well-formed-text recovery claim.
-/

/-- A section body that contains no `[` (so no bracketed tag can start inside it). -/
def noLB (s : List Char) : Prop := ∀ c ∈ s, c ≠ '['

/-- A usable tag name: non-empty and bracket-free (all nine section tags qualify). -/
def goodName (n : List Char) : Prop := n ≠ [] ∧ '[' ∉ n ∧ ']' ∉ n

/-- Assemble tagged blocks `[name] body` into one text. -/
def blocksText : List (List Char × List Char) → List Char
  | [] => []
  | b :: bs => tagToken b.1 ++ (b.2 ++ blocksText bs)

instance (n : List Char) : Decidable (goodName n) := by
  unfold goodName
  infer_instance

/-- The nine canonical sections in the order of the generation contract. -/
def nineBlocks (s1 s2 s3 s4 s5 s6 s7 s8 s9 : List Char) : List (List Char × List Char) :=
  [(S "Credibility Score", s1), (S "Risk Level", s2), (S "Risk Reason", s3),
   (S "Medical Accuracy", s4), (S "Logical Fallacies", s5), (S "Evidence Summary", s6),
   (S "Key Misconceptions", s7), (S "Scientific Rebuttal", s8), (S "Expert Recommendation", s9)]

/-- The canonical well-formed model output: an optional preamble followed by the
nine tagged sections in contract order. -/
def canonicalText (s0 s1 s2 s3 s4 s5 s6 s7 s8 s9 : List Char) : List Char :=
  s0 ++ blocksText (nineBlocks s1 s2 s3 s4 s5 s6 s7 s8 s9)

/-- A concrete detail-fetch batch: one well-formed record followed by one
record missing its `ArticleTitle` element. -/
def cxBatch : XElem :=
  .mk (S "PubmedArticleSet") none (xf
    [.mk (S "PubmedArticle") none (xf
       [.mk (S "MedlineCitation") none (xf
          [.mk (S "PMID") (some (S "11111")) (xf []),
           .mk (S "Article") none (xf
             [.mk (S "ArticleTitle") (some (S "Aspirin study")) (xf [])])])]),
     .mk (S "PubmedArticle") none (xf
       [.mk (S "MedlineCitation") none (xf
          [.mk (S "Article") none (xf
             [.mk (S "Abstract") none (xf
                [.mk (S "AbstractText") (some (S "Some text")) (xf [])])])])])])

/-- An article with at most 3 `Author` elements, none of which carries a
`LastName`. -/
def artFewNoName : XElem :=
  .mk (S "PubmedArticle") none (xf
    [.mk (S "AuthorList") none (xf
      [.mk (S "Author") none (xf [.mk (S "Initials") (some (S "J")) (xf [])]),
       .mk (S "Author") none (xf
         [.mk (S "CollectiveName") (some (S "Study Group")) (xf [])])])])

/-- An article with more than 3 `Author` elements where none of the first 3 has
a `LastName` (the 4th does, but only the first 3 are considered). -/
def artManyNoName : XElem :=
  .mk (S "PubmedArticle") none (xf
    [.mk (S "AuthorList") none (xf
      [.mk (S "Author") none (xf [.mk (S "Initials") (some (S "A")) (xf [])]),
       .mk (S "Author") none (xf []),
       .mk (S "Author") none (xf []),
       .mk (S "Author") none (xf [.mk (S "LastName") (some (S "Smith")) (xf [])])])])

/-- A 5001-character claim, exceeding the spec's 5000-character limit. -/
def longClaim : List Char := List.replicate 5001 'a'

/-!  ### Helper lemmas  -/

theorem trim_of_nil : trim [] = [] := rfl

theorem take_ne_nil_of_ne_nil {l : List Char} {n : Nat} (h : l ≠ []) (hn : 0 < n) :
    l.take n ≠ [] := by
  cases l with
  | nil => exact absurd rfl h
  | cons c t =>
    cases n with
    | zero => exact absurd hn (by simp)
    | succ m => simp [List.take]

theorem pyOr_ne_nil {x y : List Char} (hy : y ≠ []) : pyOr x y ≠ [] := by
  by_cases hx : x = [] <;> simp [pyOr, hx]
  exact hy

theorem scoreLoop_le_100 : ∀ ts, scoreLoop ts ≤ 100 := by
  intro ts
  induction ts with
  | nil => simp [scoreLoop]
  | cons t rest ih =>
    by_cases h : digitsToNat t ≤ 100 <;> simp [scoreLoop, h]
    exact ih

theorem scoreLoop_eq_find : ∀ ts,
    scoreLoop ts = ((ts.map digitsToNat).find? (fun v => decide (v ≤ 100))).getD 50 := by
  intro ts
  induction ts with
  | nil => rfl
  | cons t rest ih =>
    by_cases h : digitsToNat t ≤ 100 <;>
      simp [scoreLoop, h, List.find?, ih]

theorem riskLevelOf_mem (t : List Char) :
    riskLevelOf t ∈ [S "Safe", S "Misleading", S "Dangerous"] := by
  unfold riskLevelOf
  split_ifs <;> simp

theorem parse_model_output_of_trim_nil {raw : List Char} (h : trim raw = []) :
    parse_model_output raw = failureResult := by
  simp [parse_model_output, h]

theorem parse_cond_false {raw : List Char} (h : trim raw ≠ []) :
    ¬(raw = [] ∨ trim raw = []) := by
  rintro (rfl | hc)
  · exact h rfl
  · exact h hc

/-!  ### Claim C1  -/

/-- Claim C1: `parse_model_output` never raises (it is a total function of the raw
text), and its parse-error flag is true exactly when the input is empty or
whitespace-only; in that case it returns the fixed all-defaults record with
credibility score 0, risk level `Misleading`, the failure-specific reason, and
raw output `"(empty)"`; on every other input the flag is false. -/
theorem claim_C1 (raw : List Char) :
    ((parse_model_output raw).parse_error = true ↔ trim raw = []) ∧
    (trim raw = [] → parse_model_output raw = failureResult) ∧
    (trim raw ≠ [] → (parse_model_output raw).parse_error = false) ∧
    failureResult.parse_error = true ∧
    failureResult.credibility_score = 0 ∧
    failureResult.risk_level = S "Misleading" ∧
    failureResult.risk_reason = S "Model produced no output; check HF token and GPU memory." ∧
    failureResult.raw_output = S "(empty)" := by
  by_cases h : trim raw = []
  · refine ⟨⟨fun _ => h, fun _ => ?_⟩, fun _ => parse_model_output_of_trim_nil h,
      fun hne => absurd h hne, by decide, by decide, by decide, by decide, by decide⟩
    rw [parse_model_output_of_trim_nil h]; rfl
  · have hc := parse_cond_false h
    have hpe : (parse_model_output raw).parse_error = false := by
      simp only [parse_model_output, if_neg hc]
    refine ⟨⟨fun htrue => ?_, fun ht => absurd ht h⟩, fun ht => absurd ht h, fun _ => hpe,
      by decide, by decide, by decide, by decide, by decide⟩
    rw [hpe] at htrue
    exact absurd htrue (by decide)

/-- Witness for C1: the whitespace-only input takes the total-failure path,
and a non-empty input has a false parse-error flag. -/
theorem claim_C1_witness :
    parse_model_output (S "  ") = failureResult ∧
    (parse_model_output (S "x")).parse_error = false :=
  ⟨(claim_C1 (S "  ")).2.1 (by decide), (claim_C1 (S "x")).2.2.1 (by decide)⟩

/-!  ### Claim C3  -/

/-- Claim C3 counterexample: the spec's example `"[Credibility Score] -5 but
maybe 30"` does not yield 30.  `re.findall(r'\d+')` tokenises `-5` as the
unsigned token `5`, which is in range and wins. -/
theorem claim_C3_cx :
    (parse_model_output (S "[Credibility Score] -5 but maybe 30")).credibility_score = 5 ∧
    (parse_model_output (S "[Credibility Score] -5 but maybe 30")).credibility_score ≠ 30 := by
  constructor <;> decide

/-- Claim C3 (amended): `extract_score` scans the unsigned digit tokens in
encounter order and returns the first whose value is within `[0,100]`, default
50 (a minus sign is not part of a token); `"85/100"` yields 85, `"The score is
140"` yields 50, and `"-5 but maybe 30"` yields 5 (the digits of the negative
token form the in-range token 5, which wins). -/
theorem claim_C3 :
    (∀ s, extract_score s = extract_score_spec s) ∧
    (parse_model_output (S "[Credibility Score] 85/100")).credibility_score = 85 ∧
    (parse_model_output (S "[Credibility Score] The score is 140")).credibility_score = 50 ∧
    (parse_model_output (S "[Credibility Score] -5 but maybe 30")).credibility_score = 5 := by
  refine ⟨fun s => ?_, by decide, by decide, by decide⟩
  exact scoreLoop_eq_find (digitRuns s)

/-!  ### Claim C8  -/

/-- Claim C8: for every input, the record returned by `parse_model_output`
satisfies the result invariant: the credibility score is an integer in
`[0,100]`, the risk level is one of `Safe`, `Misleading`, `Dangerous`, and
every scalar textual field is non-empty; the two list fields may legitimately
be empty (witnessed by an input with no list sections). -/
theorem claim_C8 (raw : List Char) :
    0 ≤ (parse_model_output raw).credibility_score ∧
    (parse_model_output raw).credibility_score ≤ 100 ∧
    (parse_model_output raw).risk_level ∈ [S "Safe", S "Misleading", S "Dangerous"] ∧
    (parse_model_output raw).risk_reason ≠ [] ∧
    (parse_model_output raw).medical_accuracy ≠ [] ∧
    (parse_model_output raw).evidence_summary ≠ [] ∧
    (parse_model_output raw).rebuttal ≠ [] ∧
    (parse_model_output raw).recommendation ≠ [] ∧
    (parse_model_output (S "x")).logical_fallacies = [] ∧
    (parse_model_output (S "x")).key_misconceptions = [] := by
  by_cases h : raw = [] ∨ trim raw = []
  · have hr : parse_model_output raw = failureResult := by
      simp only [parse_model_output, if_pos h]
    rw [hr]
    refine ⟨by decide, by decide, by decide, by decide, by decide, by decide, by decide,
      by decide, by decide, by decide⟩
  · have hraw : raw ≠ [] := fun hn => h (Or.inl hn)
    simp only [parse_model_output, if_neg h]
    refine ⟨Nat.zero_le _, scoreLoop_le_100 _, riskLevelOf_mem _,
      pyOr_ne_nil (by decide), pyOr_ne_nil (take_ne_nil_of_ne_nil hraw (by decide)),
      pyOr_ne_nil (by decide), pyOr_ne_nil (by decide), pyOr_ne_nil (by decide),
      by decide, by decide⟩

/-!  ### Claim C9  -/

theorem lineItem_eq (l : List Char) :
    lineItem l =
      if (match trim l with | c :: _ => bulletChar c | [] => false) then
        (if cleanItem (trim l) = [] ∨ lowerStr (cleanItem (trim l)) ∈ sentinelStrs then none
         else some (cleanItem (trim l)))
      else none := by
  unfold lineItem cleanItem
  by_cases hb : (match trim l with | c :: _ => bulletChar c | [] => false) = true
  · simp only [hb, if_true]
    by_cases hk : trim ((trim l).dropWhile bulletStripChar) = [] ∨
        lowerStr (trim ((trim l).dropWhile bulletStripChar)) ∈ sentinelStrs
    · rw [if_pos hk, if_neg (by tauto)]
    · rw [if_neg hk, if_pos (by tauto)]
  · simp only [Bool.not_eq_true] at hb
    simp only [hb, Bool.false_eq_true, if_false]

theorem filterMap_lineItem (ls : List (List Char)) :
    ls.filterMap lineItem =
      (((ls.map trim).filter
          (fun l => match l with | c :: _ => bulletChar c | [] => false)).map cleanItem).filter
        (fun c => ¬(c = [] ∨ lowerStr c ∈ sentinelStrs)) := by
  induction ls with
  | nil => rfl
  | cons l ls ih =>
    rw [List.filterMap_cons, lineItem_eq, List.map_cons, List.filter_cons]
    by_cases hb : (match trim l with | c :: _ => bulletChar c | [] => false) = true
    · rw [if_pos hb, if_pos hb, List.map_cons, List.filter_cons]
      by_cases hk : cleanItem (trim l) = [] ∨ lowerStr (cleanItem (trim l)) ∈ sentinelStrs
      · rw [if_pos hk, if_neg (by simp [hk]), ih]
      · rw [if_neg hk, if_pos (by simp [hk]), ih]
    · simp only [Bool.not_eq_true] at hb
      rw [hb]
      simp only [Bool.false_eq_true, if_false, ih]

/-- Claim C9 counterexample: on a section whose only line is the bulleted
sentinel `"- none"`, a bulleted line *was* found, yet the code still falls
back (its condition is `not items`, not "no bulleted lines") and returns the
whole trimmed section; under the claim's description the result would be `[]`. -/
theorem claim_C9_cx :
    extract_list_items (S "- none") = [S "- none"] ∧ extract_list_items (S "- none") ≠ [] := by
  constructor <;> decide

/-- Claim C9 (amended): `extract_list_items` keeps only bulleted lines, strips
the marker and whitespace, discards empty items and sentinel items ("none",
"n/a", "na"); only when *no item survived* (no bulleted line, or every bulleted
item was empty or a sentinel) and the trimmed section is non-empty and
non-sentinel does it return the whole trimmed section as a single implicit
item, insertion order preserved; the spec's two examples hold as stated. -/
theorem claim_C9 :
    (∀ s, extract_list_items s = extract_list_items_spec s) ∧
    extract_list_items (S "- claim A\n- claim B\nNone") = [S "claim A", S "claim B"] ∧
    extract_list_items (S "None") = [] := by
  refine ⟨fun s => ?_, by decide, by decide⟩
  unfold extract_list_items extract_list_items_spec bulletLines
  rw [filterMap_lineItem]

/-!  ### Claim C5  -/

/-- Claim C5: `search_pubmed` never raises toward its caller: an id-search
failure yields the empty list; an id-search returning zero identifiers
short-circuits (detail fetch not invoked, the `Bool` component) and returns the
empty list; a network failure or an unparseable body in the detail-fetch phase
likewise yields the empty list. -/
theorem claim_C5 (w : PubmedWorld) :
    (w.esearch = none → search_pubmed_run w = ([], false)) ∧
    (w.esearch = some [] → search_pubmed_run w = ([], false)) ∧
    (∀ ids, w.esearch = some ids → ids ≠ [] → w.efetch ids = none →
      search_pubmed_run w = ([], true)) ∧
    (∀ ids, w.esearch = some ids → ids ≠ [] → w.efetch ids = some none →
      search_pubmed_run w = ([], true)) := by
  refine ⟨fun h => ?_, fun h => ?_, fun ids h hne hf => ?_, fun ids h hne hf => ?_⟩
  · simp [search_pubmed_run, h]
  · simp [search_pubmed_run, h]
  · simp [search_pubmed_run, h, hne, hf]
  · simp [search_pubmed_run, h, hne, hf, parse_pubmed_xml]

/-- Witness for C5: a concrete world for each failure mode. -/
theorem claim_C5_witness :
    search_pubmed_run ⟨none, fun _ => none⟩ = ([], false) ∧
    search_pubmed_run ⟨some [], fun _ => none⟩ = ([], false) ∧
    search_pubmed_run ⟨some [S "12345"], fun _ => none⟩ = ([], true) ∧
    search_pubmed_run ⟨some [S "12345"], fun _ => some none⟩ = ([], true) :=
  ⟨(claim_C5 _).1 rfl, (claim_C5 _).2.1 rfl,
   (claim_C5 _).2.2.1 [S "12345"] rfl (by decide) rfl,
   (claim_C5 _).2.2.2 [S "12345"] rfl (by decide) rfl⟩

/-!  ### Claim C6  -/

theorem dropWhile_eq_self_of_all {p : Char → Bool} {s : List Char}
    (h : ∀ c ∈ s, p c = false) : s.dropWhile p = s := by
  cases s with
  | nil => rfl
  | cons c t => simp [List.dropWhile_cons, h c (by simp)]

theorem trim_of_no_space {s : List Char} (h : ∀ c ∈ s, isSpacePy c = false) : trim s = s := by
  have h1 : ltrim s = s := dropWhile_eq_self_of_all h
  have h2 : s.reverse.dropWhile isSpacePy = s.reverse :=
    dropWhile_eq_self_of_all (fun c hc => h c (List.mem_reverse.mp hc))
  rw [trim, h1, h2, List.reverse_reverse]

theorem analyze_ok {gen : List Char → List (List Char)} {claim : List Char}
    (h : trim claim ≠ []) :
    analyze_health_claim_stream gen claim = (Except.ok (gen (trim claim)), true) := by
  unfold analyze_health_claim_stream
  rw [if_neg (parse_cond_false h)]

/-- Claim C6 counterexample: a claim of 5001 characters is neither rejected nor
truncated: validation passes, generation work starts (the `Bool`), and the
generation oracle receives the full untruncated text. -/
theorem claim_C6_cx :
    5000 < longClaim.length ∧
    analyze_health_claim_stream (fun s => [s]) longClaim = (Except.ok [longClaim], true) := by
  have hlen : longClaim.length = 5001 := by
    rw [longClaim, List.length_replicate]
  have hmem : ∀ c ∈ longClaim, isSpacePy c = false := by
    intro c hc
    rw [longClaim] at hc
    rw [List.eq_of_mem_replicate hc]
    decide
  have htrim : trim longClaim = longClaim := trim_of_no_space hmem
  have hne : longClaim ≠ [] := by
    intro h
    rw [h] at hlen
    exact absurd hlen (by decide)
  have htne : trim longClaim ≠ [] := by
    rw [htrim]
    exact hne
  refine ⟨by rw [hlen]; decide, ?_⟩
  have happ := @analyze_ok (fun s => [s]) longClaim htne
  rw [htrim] at happ
  exact happ

/-- Claim C6 (amended): an empty or whitespace-only claim fails immediately
with the input-validation error, before any generation work is started; on
every other claim the generation work starts on the full stripped text — no
upper character limit is enforced, so a claim longer than 5000 characters is
analyzed in full. -/
theorem claim_C6 (gen : List Char → List (List Char)) (claim : List Char) :
    (trim claim = [] → analyze_health_claim_stream gen claim =
      (Except.error (S "Health claim cannot be empty"), false)) ∧
    (trim claim ≠ [] → analyze_health_claim_stream gen claim =
      (Except.ok (gen (trim claim)), true)) := by
  constructor
  · intro h
    simp [analyze_health_claim_stream, h]
  · intro h
    unfold analyze_health_claim_stream
    rw [if_neg (parse_cond_false h)]

/-- Witness for C6: the empty-claim rejection and a normal run. -/
theorem claim_C6_witness :
    analyze_health_claim_stream (fun s => [s]) (S " ") =
      (Except.error (S "Health claim cannot be empty"), false) ∧
    analyze_health_claim_stream (fun s => [s]) (S "claim") =
      (Except.ok [trim (S "claim")], true) :=
  ⟨(claim_C6 _ _).1 (by decide), (claim_C6 _ _).2 (by decide)⟩

/-!  ### Claim C7  -/

/-- Claim C7: on every non-empty input, per-field fallbacks apply independently
for exactly the sections that extract to empty: medical accuracy falls back to
the first 500 characters of the raw text, every other scalar field to its fixed
placeholder; fields whose sections are present receive the section content. -/
theorem claim_C7 (raw : List Char) (h : trim raw ≠ []) :
    ((extract_section raw (S "Risk Reason") = [] →
        (parse_model_output raw).risk_reason = S "Not provided") ∧
     (extract_section raw (S "Risk Reason") ≠ [] →
        (parse_model_output raw).risk_reason = extract_section raw (S "Risk Reason"))) ∧
    ((extract_section raw (S "Medical Accuracy") = [] →
        (parse_model_output raw).medical_accuracy = raw.take 500) ∧
     (extract_section raw (S "Medical Accuracy") ≠ [] →
        (parse_model_output raw).medical_accuracy = extract_section raw (S "Medical Accuracy"))) ∧
    ((extract_section raw (S "Evidence Summary") = [] →
        (parse_model_output raw).evidence_summary = S "No evidence description found") ∧
     (extract_section raw (S "Evidence Summary") ≠ [] →
        (parse_model_output raw).evidence_summary = extract_section raw (S "Evidence Summary"))) ∧
    ((extract_section raw (S "Scientific Rebuttal") = [] →
        (parse_model_output raw).rebuttal =
          S "Consult a healthcare professional for more information.") ∧
     (extract_section raw (S "Scientific Rebuttal") ≠ [] →
        (parse_model_output raw).rebuttal = extract_section raw (S "Scientific Rebuttal"))) ∧
    ((extract_section raw (S "Expert Recommendation") = [] →
        (parse_model_output raw).recommendation =
          S "For health-related information, consult a qualified healthcare provider.") ∧
     (extract_section raw (S "Expert Recommendation") ≠ [] →
        (parse_model_output raw).recommendation =
          extract_section raw (S "Expert Recommendation"))) := by
  have hc := parse_cond_false h
  simp only [parse_model_output, if_neg hc]
  refine ⟨⟨fun he => ?_, fun he => ?_⟩, ⟨fun he => ?_, fun he => ?_⟩, ⟨fun he => ?_, fun he => ?_⟩,
    ⟨fun he => ?_, fun he => ?_⟩, ⟨fun he => ?_, fun he => ?_⟩⟩ <;>
      simp [pyOr, he]

/-- Witness for C7: a raw text with a Risk Reason section but no Expert
Recommendation section takes the section content for the former and the fixed
placeholder for the latter. -/
theorem claim_C7_witness :
    (parse_model_output (S "[Risk Reason] low risk")).risk_reason =
      extract_section (S "[Risk Reason] low risk") (S "Risk Reason") ∧
    (parse_model_output (S "[Risk Reason] low risk")).recommendation =
      S "For health-related information, consult a qualified healthcare provider." :=
  ⟨(claim_C7 (S "[Risk Reason] low risk") (by decide)).1.2 (by decide),
   (claim_C7 (S "[Risk Reason] low risk") (by decide)).2.2.2.2.1 (by decide)⟩

/-!  ### Claim C4  -/

/-- Claim C4 counterexample: in a batch of one well-formed record and one
record missing its title tag, the title-less record is *not* dropped — both
records are returned, the malformed one with title `"N/A"`; under the claim the
result would contain only the well-formed record. -/
theorem claim_C4_cx :
    (parse_pubmed_xml (some cxBatch)).map Article.title = [S "Aspirin study", S "N/A"] ∧
    (parse_pubmed_xml (some cxBatch)).map Article.title ≠ [S "Aspirin study"] := by
  constructor <;> decide

/-- Claim C4 (amended): a record missing its title tag is kept with the
placeholder title `"N/A"`, not dropped; the per-record field extraction is
total (every lookup has a default or an explicit `None` check), so a record
never aborts the batch and nothing raises: the batch yields exactly one result
record per `PubmedArticle` element, each depending only on its own element,
and an unparseable response body yields the empty list. -/
theorem claim_C4 :
    (∀ root, (parse_pubmed_xml (some root)).length =
      (descendantsNamed (S "PubmedArticle") root).length) ∧
    (∀ (root : XElem) (i : Nat), (parse_pubmed_xml (some root))[i]? =
      ((descendantsNamed (S "PubmedArticle") root)[i]?).map parseArticle) ∧
    parse_pubmed_xml none = [] ∧
    (parse_pubmed_xml (some cxBatch)).length = 2 ∧
    (parseArticle (.mk (S "PubmedArticle") none (xf []))).title = S "N/A" := by
  refine ⟨fun root => ?_, fun root i => ?_, rfl, by decide, by decide⟩
  · simp [parse_pubmed_xml]
  · simp [parse_pubmed_xml, List.getElem?_map]

/-!  ### Claim C10  -/

theorem filterMap_authorName (l : List XElem) :
    l.filterMap authorName = (l.filter (fun a => surnameOf a ≠ [])).map formattedName := by
  induction l with
  | nil => rfl
  | cons a t ih =>
    rw [List.filterMap_cons, List.filter_cons]
    by_cases h : surnameOf a = []
    · have ha : authorName a = none := by
        simp only [authorName]
        rw [if_neg (by simpa [surnameOf] using h)]
      rw [ha, if_neg (by simp [h]), ih]
    · have ha : authorName a = some (formattedName a) := by
        simp only [authorName, formattedName, surnameOf]
        rw [if_pos (by simpa [surnameOf] using h)]
      rw [ha, if_pos (by simp [h]), List.map_cons, ih]

/-- Claim C10: in every record returned by `parse_pubmed_xml`, only authors
with a non-empty `LastName` contribute a formatted `"Surname Initials"` name;
with at most 3 `Author` elements and no name the field is `"Unknown"`; the
`"et al."` marker is appended exactly when more than 3 `Author` elements exist,
so the field can be `"et al."` alone when more than 3 authors exist but none of
the first 3 has a surname. -/
theorem claim_C10 :
    (∀ article, (parseArticle article).authors =
      authorsSpec (descendantsNamed (S "Author") article)) ∧
    (∀ root, (parse_pubmed_xml (some root)).map Article.authors =
      (descendantsNamed (S "PubmedArticle") root).map
        (fun a => authorsSpec (descendantsNamed (S "Author") a))) ∧
    ((descendantsNamed (S "Author") artFewNoName).length ≤ 3 ∧
      (parseArticle artFewNoName).authors = S "Unknown") ∧
    (3 < (descendantsNamed (S "Author") artManyNoName).length ∧
      (parseArticle artManyNoName).authors = S "et al.") := by
  have hmain : ∀ article, (parseArticle article).authors =
      authorsSpec (descendantsNamed (S "Author") article) := by
    intro article
    simp only [parseArticle, authorsSpec]
    rw [filterMap_authorName]
    by_cases h3 : 3 < (descendantsNamed (S "Author") article).length <;>
      simp [h3]
  refine ⟨hmain, fun root => ?_, ⟨by decide, by decide⟩, ⟨by decide, by decide⟩⟩
  simp only [parse_pubmed_xml, List.map_map]
  exact List.map_congr_left (fun a _ => hmain a)

/-!  ### Claim C2: lemmas about the tag scanner  -/

theorem extractAfter_nil_pat : ∀ (l : List Char), extractAfter [] l = some l := by
  intro l
  cases l with
  | nil => rfl
  | cons c t => simp [extractAfter]

theorem extractAfter_of_isPrefixOf {pat t : List Char} (hp : pat ≠ [])
    (h : pat.isPrefixOf t = true) : extractAfter pat t = some (t.drop pat.length) := by
  cases t with
  | nil => exact absurd (List.prefix_nil.mp (List.isPrefixOf_iff_prefix.mp h)) hp
  | cons c rest => simp [extractAfter, h]

theorem tag_not_prefixOf_cons {n : List Char} {c : Char} {l : List Char} (hc : c ≠ '[') :
    (tagToken n).isPrefixOf (c :: l) = false := by
  cases hEq : (tagToken n).isPrefixOf (c :: l) with
  | false => rfl
  | true =>
    have hp := List.isPrefixOf_iff_prefix.mp hEq
    exact absurd (List.cons_prefix_cons.mp hp).1.symm hc

theorem extractAfter_tag_append {n : List Char} : ∀ {a : List Char} (r : List Char),
    (∀ c ∈ a, c ≠ '[') →
    extractAfter (tagToken n) (a ++ r) = extractAfter (tagToken n) r := by
  intro a
  induction a with
  | nil => intro r _; rfl
  | cons c t ih =>
    intro r h
    have hc : c ≠ '[' := h c (List.mem_cons_self c t)
    show extractAfter (tagToken n) (c :: (t ++ r)) = extractAfter (tagToken n) r
    simp only [extractAfter, tag_not_prefixOf_cons hc, Bool.false_eq_true, if_false]
    exact ih r (fun x hx => h x (List.mem_cons_of_mem _ hx))

theorem closeTail_of_mem : ∀ (l : List Char), ']' ∈ l → closeTail l = true
  | [], h => by cases h
  | c :: t, h => by
    by_cases hc : c = ']'
    · simp [closeTail, hc]
    · rcases List.mem_cons.mp h with h1 | h1
      · exact absurd h1.symm hc
      · simp [closeTail, hc, closeTail_of_mem t h1]

theorem bracketAt_tagToken {m : List Char} (hm : goodName m) (r : List Char) :
    bracketAt (tagToken m ++ r) = true := by
  obtain ⟨hne, _, hrb⟩ := hm
  cases m with
  | nil => exact absurd rfl hne
  | cons c t =>
    have hc : c ≠ ']' := fun h => hrb (List.mem_cons.mpr (Or.inl h.symm))
    have hmem : ']' ∈ (t ++ [']']) ++ r := by simp
    show bracketAt ('[' :: (c :: ((t ++ [']']) ++ r))) = true
    simp only [bracketAt, closeAfterOne, if_neg hc]
    rw [closeTail_of_mem _ hmem]
    rfl

theorem takeUntil_append_of_noLB : ∀ {a : List Char} (r : List Char),
    (∀ c ∈ a, c ≠ '[') →
    takeUntilTagStart (a ++ r) = a ++ takeUntilTagStart r := by
  intro a
  induction a with
  | nil => intro r _; rfl
  | cons c t ih =>
    intro r h
    have hc : (c == '[') = false := beq_eq_false_iff_ne.mpr (h c (List.mem_cons_self c t))
    have hb : bracketAt (c :: (t ++ r)) = false := by
      simp [bracketAt, hc]
    show takeUntilTagStart (c :: (t ++ r)) = c :: (t ++ takeUntilTagStart r)
    simp only [takeUntilTagStart, hb, Bool.false_eq_true, if_false]
    rw [ih r (fun x hx => h x (List.mem_cons_of_mem _ hx))]

theorem takeUntil_of_bracketAt {l : List Char} (h : bracketAt l = true) :
    takeUntilTagStart l = [] := by
  cases l with
  | nil => rfl
  | cons c t => simp [takeUntilTagStart, h]

theorem closeName_eq : ∀ (n m r : List Char), ']' ∉ n → ']' ∉ m →
    (n ++ [']']) <+: (m ++ (']' :: r)) → n = m := by
  intro n
  induction n with
  | nil =>
    intro m r _ hm hp
    cases m with
    | nil => rfl
    | cons c m' =>
      have h1 := (List.cons_prefix_cons.mp hp).1
      exact absurd (List.mem_cons.mpr (Or.inl h1)) hm
  | cons a n' ih =>
    intro m r hn hm hp
    cases m with
    | nil =>
      have h1 := (List.cons_prefix_cons.mp hp).1
      exact absurd (List.mem_cons.mpr (Or.inl h1.symm)) hn
    | cons c m' =>
      obtain ⟨h1, h2⟩ := List.cons_prefix_cons.mp hp
      rw [h1, ih m' r (fun hx => hn (List.mem_cons_of_mem _ hx))
        (fun hx => hm (List.mem_cons_of_mem _ hx)) h2]

theorem tagToken_isPrefixOf_eq {n m r : List Char} (hn : ']' ∉ n) (hm : ']' ∉ m)
    (h : (tagToken n).isPrefixOf (tagToken m ++ r) = true) : n = m := by
  have hp := List.isPrefixOf_iff_prefix.mp h
  have hshape : tagToken m ++ r = '[' :: (m ++ (']' :: r)) := by
    simp [tagToken]
  rw [show tagToken n = '[' :: (n ++ [']']) from rfl, hshape] at hp
  exact closeName_eq n m r hn hm (List.cons_prefix_cons.mp hp).2

theorem extractAfter_skip_token {n m : List Char} (hn : goodName n) (hm : goodName m)
    (hne : n ≠ m) (r : List Char) :
    extractAfter (tagToken n) (tagToken m ++ r) = extractAfter (tagToken n) r := by
  have h1 : (tagToken n).isPrefixOf (tagToken m ++ r) = false := by
    cases hEq : (tagToken n).isPrefixOf (tagToken m ++ r) with
    | false => rfl
    | true => exact absurd (tagToken_isPrefixOf_eq hn.2.2 hm.2.2 hEq) hne
  have hskip : ∀ c ∈ m ++ [']'], c ≠ '[' := by
    intro c hc h
    rcases List.mem_append.mp hc with hc1 | hc1
    · exact hm.2.1 (h ▸ hc1)
    · rw [List.mem_singleton.mp hc1] at h
      exact absurd h (by decide)
  have h1' : (tagToken n).isPrefixOf ('[' :: ((m ++ [']']) ++ r)) = false := h1
  show extractAfter (tagToken n) ('[' :: ((m ++ [']']) ++ r)) = extractAfter (tagToken n) r
  simp only [extractAfter, h1', Bool.false_eq_true, if_false]
  exact extractAfter_tag_append r hskip

theorem extractAfter_blocks (n : List Char) (hn : goodName n) (s : List Char)
    (bs2 : List (List Char × List Char)) :
    ∀ (bs1 : List (List Char × List Char)) (pre : List Char),
      (∀ c ∈ pre, c ≠ '[') →
      (∀ b ∈ bs1, goodName b.1 ∧ (∀ c ∈ b.2, c ≠ '[') ∧ b.1 ≠ n) →
      extractAfter (tagToken n) (pre ++ blocksText (bs1 ++ (n, s) :: bs2)) =
        some (s ++ blocksText bs2) := by
  intro bs1
  induction bs1 with
  | nil =>
    intro pre hpre _
    show extractAfter (tagToken n) (pre ++ (tagToken n ++ (s ++ blocksText bs2))) =
      some (s ++ blocksText bs2)
    rw [extractAfter_tag_append _ hpre,
      extractAfter_of_isPrefixOf (by simp [tagToken])
        (List.isPrefixOf_iff_prefix.mpr (List.prefix_append _ _)),
      List.drop_left]
  | cons b bs ih =>
    intro pre hpre hall
    obtain ⟨hgb, hlb, hneb⟩ := hall b (List.mem_cons_self b bs)
    show extractAfter (tagToken n)
        (pre ++ (tagToken b.1 ++ (b.2 ++ blocksText (bs ++ (n, s) :: bs2)))) =
      some (s ++ blocksText bs2)
    rw [extractAfter_tag_append _ hpre, extractAfter_skip_token hn hgb (Ne.symm hneb)]
    exact ih b.2 hlb (fun x hx => hall x (List.mem_cons_of_mem _ hx))

theorem extract_section_blocks (n pre s : List Char) (bs1 bs2 : List (List Char × List Char))
    (hn : goodName n) (hpre : ∀ c ∈ pre, c ≠ '[') (hs : ∀ c ∈ s, c ≠ '[')
    (h1 : ∀ b ∈ bs1, goodName b.1 ∧ (∀ c ∈ b.2, c ≠ '[') ∧ b.1 ≠ n)
    (h2 : ∀ b ∈ bs2, goodName b.1) :
    extract_section (pre ++ blocksText (bs1 ++ (n, s) :: bs2)) n = trim s := by
  unfold extract_section
  rw [extractAfter_blocks n hn s bs2 bs1 pre hpre h1]
  show trim (takeUntilTagStart (s ++ blocksText bs2)) = trim s
  rw [takeUntil_append_of_noLB _ hs]
  cases bs2 with
  | nil => simp [blocksText, takeUntilTagStart]
  | cons b bs =>
    have hb := h2 b (List.mem_cons_self b bs)
    rw [show blocksText (b :: bs) = tagToken b.1 ++ (b.2 ++ blocksText bs) from rfl,
      takeUntil_of_bracketAt (bracketAt_tagToken hb _)]
    simp

theorem extractAfter_decomp {pat post : List Char} : ∀ (pre : List Char),
    (∀ i < pre.length, pat.isPrefixOf ((pre ++ (pat ++ post)).drop i) = false) →
    extractAfter pat (pre ++ (pat ++ post)) = some post := by
  intro pre
  induction pre with
  | nil =>
    intro _
    by_cases hp : pat = []
    · subst hp
      exact extractAfter_nil_pat post
    · show extractAfter pat (pat ++ post) = some post
      rw [extractAfter_of_isPrefixOf hp
        (List.isPrefixOf_iff_prefix.mpr (List.prefix_append _ _)), List.drop_left]
  | cons c t ih =>
    intro h
    have h0 := h 0 (by simp)
    rw [List.drop_zero] at h0
    simp only [List.cons_append] at h0
    show extractAfter pat (c :: (t ++ (pat ++ post))) = some post
    simp only [extractAfter, h0, Bool.false_eq_true, if_false]
    exact ih (fun i hi => by
      simpa [List.drop_succ_cons] using h (i + 1) (by simpa using Nat.succ_lt_succ hi))

theorem extractAfter_none_of_no_occ {pat : List Char} (hp : pat ≠ []) :
    ∀ (text : List Char), (∀ i < text.length, pat.isPrefixOf (text.drop i) = false) →
    extractAfter pat text = none := by
  intro text
  induction text with
  | nil =>
    intro _
    simp [extractAfter, hp]
  | cons c t ih =>
    intro h
    have h0 := h 0 (by simp)
    rw [List.drop_zero] at h0
    simp only [extractAfter, h0, Bool.false_eq_true, if_false]
    exact ih (fun i hi => by
      simpa [List.drop_succ_cons] using h (i + 1) (by simpa using Nat.succ_lt_succ hi))

theorem takeUntil_decomp : ∀ (mid rest : List Char),
    (∀ i < mid.length, bracketAt ((mid ++ rest).drop i) = false) →
    (rest = [] ∨ bracketAt rest = true) →
    takeUntilTagStart (mid ++ rest) = mid := by
  intro mid
  induction mid with
  | nil =>
    intro rest _ hr
    rcases hr with rfl | hb
    · rfl
    · exact takeUntil_of_bracketAt hb
  | cons c t ih =>
    intro rest h hr
    have h0 := h 0 (by simp)
    rw [List.drop_zero] at h0
    simp only [List.cons_append] at h0
    show takeUntilTagStart (c :: (t ++ rest)) = c :: t
    simp only [takeUntilTagStart, h0, Bool.false_eq_true, if_false]
    rw [ih rest (fun i hi => by
      simpa [List.drop_succ_cons] using h (i + 1) (by simpa using Nat.succ_lt_succ hi)) hr]

/-- Claim C2: `extract_section` returns the substring that begins immediately
after the first occurrence of the bracketed tag and ends immediately before
the next complete bracketed tag (of any name) or the end of text, trimmed of
surrounding whitespace (first conjunct, stated on an arbitrary decomposition
marking the first occurrence and the next tag boundary); it returns the empty
string when the tag is absent (second conjunct); consequently, on every
well-formed text made of an optional bracket-free preamble and the nine tagged
sections with bracket-free bodies, it recovers each section's content verbatim
minus surrounding whitespace (third conjunct). -/
theorem claim_C2 :
    (∀ (text tag pre mid rest : List Char),
      text = pre ++ (tagToken tag ++ (mid ++ rest)) →
      (∀ i < pre.length, (tagToken tag).isPrefixOf (text.drop i) = false) →
      (∀ i < mid.length, bracketAt ((mid ++ rest).drop i) = false) →
      (rest = [] ∨ bracketAt rest = true) →
      extract_section text tag = trim mid) ∧
    (∀ (text tag : List Char),
      (∀ i < text.length, (tagToken tag).isPrefixOf (text.drop i) = false) →
      extract_section text tag = []) ∧
    (∀ s0 s1 s2 s3 s4 s5 s6 s7 s8 s9 : List Char,
      (∀ c ∈ s0, c ≠ '[') → (∀ c ∈ s1, c ≠ '[') → (∀ c ∈ s2, c ≠ '[') →
      (∀ c ∈ s3, c ≠ '[') → (∀ c ∈ s4, c ≠ '[') → (∀ c ∈ s5, c ≠ '[') →
      (∀ c ∈ s6, c ≠ '[') → (∀ c ∈ s7, c ≠ '[') → (∀ c ∈ s8, c ≠ '[') →
      (∀ c ∈ s9, c ≠ '[') →
      (extract_section (canonicalText s0 s1 s2 s3 s4 s5 s6 s7 s8 s9)
          (S "Credibility Score") = trim s1 ∧
       extract_section (canonicalText s0 s1 s2 s3 s4 s5 s6 s7 s8 s9)
          (S "Risk Level") = trim s2 ∧
       extract_section (canonicalText s0 s1 s2 s3 s4 s5 s6 s7 s8 s9)
          (S "Risk Reason") = trim s3 ∧
       extract_section (canonicalText s0 s1 s2 s3 s4 s5 s6 s7 s8 s9)
          (S "Medical Accuracy") = trim s4 ∧
       extract_section (canonicalText s0 s1 s2 s3 s4 s5 s6 s7 s8 s9)
          (S "Logical Fallacies") = trim s5 ∧
       extract_section (canonicalText s0 s1 s2 s3 s4 s5 s6 s7 s8 s9)
          (S "Evidence Summary") = trim s6 ∧
       extract_section (canonicalText s0 s1 s2 s3 s4 s5 s6 s7 s8 s9)
          (S "Key Misconceptions") = trim s7 ∧
       extract_section (canonicalText s0 s1 s2 s3 s4 s5 s6 s7 s8 s9)
          (S "Scientific Rebuttal") = trim s8 ∧
       extract_section (canonicalText s0 s1 s2 s3 s4 s5 s6 s7 s8 s9)
          (S "Expert Recommendation") = trim s9)) := by
  refine ⟨?_, ?_, ?_⟩
  · intro text tag pre mid rest htext hpre hmid hrest
    subst htext
    unfold extract_section
    rw [extractAfter_decomp pre hpre]
    show trim (takeUntilTagStart (mid ++ rest)) = trim mid
    rw [takeUntil_decomp mid rest hmid hrest]
  · intro text tag h
    unfold extract_section
    rw [extractAfter_none_of_no_occ (by simp [tagToken]) text h]
  · intro s0 s1 s2 s3 s4 s5 s6 s7 s8 s9 h0 h1 h2 h3 h4 h5 h6 h7 h8 h9
    refine ⟨?_, ?_, ?_, ?_, ?_, ?_, ?_, ?_, ?_⟩
    · exact extract_section_blocks (S "Credibility Score") s0 s1
        []
        [(S "Risk Level", s2), (S "Risk Reason", s3), (S "Medical Accuracy", s4),
         (S "Logical Fallacies", s5), (S "Evidence Summary", s6), (S "Key Misconceptions", s7),
         (S "Scientific Rebuttal", s8), (S "Expert Recommendation", s9)]
        (by decide) h0 h1
        (by intro b hb; exact absurd hb (List.not_mem_nil b))
        (by intro b hb; fin_cases hb <;> dsimp only <;> decide)
    · exact extract_section_blocks (S "Risk Level") s0 s2
        [(S "Credibility Score", s1)]
        [(S "Risk Reason", s3), (S "Medical Accuracy", s4), (S "Logical Fallacies", s5),
         (S "Evidence Summary", s6), (S "Key Misconceptions", s7), (S "Scientific Rebuttal", s8),
         (S "Expert Recommendation", s9)]
        (by decide) h0 h2
        (by intro b hb; fin_cases hb <;> dsimp only <;> exact ⟨by decide, by assumption, by decide⟩)
        (by intro b hb; fin_cases hb <;> dsimp only <;> decide)
    · exact extract_section_blocks (S "Risk Reason") s0 s3
        [(S "Credibility Score", s1), (S "Risk Level", s2)]
        [(S "Medical Accuracy", s4), (S "Logical Fallacies", s5), (S "Evidence Summary", s6),
         (S "Key Misconceptions", s7), (S "Scientific Rebuttal", s8),
         (S "Expert Recommendation", s9)]
        (by decide) h0 h3
        (by intro b hb; fin_cases hb <;> dsimp only <;> exact ⟨by decide, by assumption, by decide⟩)
        (by intro b hb; fin_cases hb <;> dsimp only <;> decide)
    · exact extract_section_blocks (S "Medical Accuracy") s0 s4
        [(S "Credibility Score", s1), (S "Risk Level", s2), (S "Risk Reason", s3)]
        [(S "Logical Fallacies", s5), (S "Evidence Summary", s6), (S "Key Misconceptions", s7),
         (S "Scientific Rebuttal", s8), (S "Expert Recommendation", s9)]
        (by decide) h0 h4
        (by intro b hb; fin_cases hb <;> dsimp only <;> exact ⟨by decide, by assumption, by decide⟩)
        (by intro b hb; fin_cases hb <;> dsimp only <;> decide)
    · exact extract_section_blocks (S "Logical Fallacies") s0 s5
        [(S "Credibility Score", s1), (S "Risk Level", s2), (S "Risk Reason", s3),
         (S "Medical Accuracy", s4)]
        [(S "Evidence Summary", s6), (S "Key Misconceptions", s7), (S "Scientific Rebuttal", s8),
         (S "Expert Recommendation", s9)]
        (by decide) h0 h5
        (by intro b hb; fin_cases hb <;> dsimp only <;> exact ⟨by decide, by assumption, by decide⟩)
        (by intro b hb; fin_cases hb <;> dsimp only <;> decide)
    · exact extract_section_blocks (S "Evidence Summary") s0 s6
        [(S "Credibility Score", s1), (S "Risk Level", s2), (S "Risk Reason", s3),
         (S "Medical Accuracy", s4), (S "Logical Fallacies", s5)]
        [(S "Key Misconceptions", s7), (S "Scientific Rebuttal", s8),
         (S "Expert Recommendation", s9)]
        (by decide) h0 h6
        (by intro b hb; fin_cases hb <;> dsimp only <;> exact ⟨by decide, by assumption, by decide⟩)
        (by intro b hb; fin_cases hb <;> dsimp only <;> decide)
    · exact extract_section_blocks (S "Key Misconceptions") s0 s7
        [(S "Credibility Score", s1), (S "Risk Level", s2), (S "Risk Reason", s3),
         (S "Medical Accuracy", s4), (S "Logical Fallacies", s5), (S "Evidence Summary", s6)]
        [(S "Scientific Rebuttal", s8), (S "Expert Recommendation", s9)]
        (by decide) h0 h7
        (by intro b hb; fin_cases hb <;> dsimp only <;> exact ⟨by decide, by assumption, by decide⟩)
        (by intro b hb; fin_cases hb <;> dsimp only <;> decide)
    · exact extract_section_blocks (S "Scientific Rebuttal") s0 s8
        [(S "Credibility Score", s1), (S "Risk Level", s2), (S "Risk Reason", s3),
         (S "Medical Accuracy", s4), (S "Logical Fallacies", s5), (S "Evidence Summary", s6),
         (S "Key Misconceptions", s7)]
        [(S "Expert Recommendation", s9)]
        (by decide) h0 h8
        (by intro b hb; fin_cases hb <;> dsimp only <;> exact ⟨by decide, by assumption, by decide⟩)
        (by intro b hb; fin_cases hb <;> dsimp only <;> decide)
    · exact extract_section_blocks (S "Expert Recommendation") s0 s9
        [(S "Credibility Score", s1), (S "Risk Level", s2), (S "Risk Reason", s3),
         (S "Medical Accuracy", s4), (S "Logical Fallacies", s5), (S "Evidence Summary", s6),
         (S "Key Misconceptions", s7), (S "Scientific Rebuttal", s8)]
        []
        (by decide) h0 h9
        (by intro b hb; fin_cases hb <;> dsimp only <;> exact ⟨by decide, by assumption, by decide⟩)
        (by intro b hb; exact absurd hb (List.not_mem_nil b))

/-- Witness for C2: a concrete decomposition, a concrete absent tag, and a
concrete canonical nine-section text. -/
theorem claim_C2_witness :
    extract_section (S "" ++ (tagToken (S "T") ++ (S " hi " ++ S "[U] x"))) (S "T") =
      trim (S " hi ") ∧
    extract_section (S "hello") (S "T") = [] ∧
    extract_section (canonicalText (S "intro ") (S " 85 ") (S " Safe ") (S " r ") (S " m ")
        (S " f ") (S " e ") (S " k ") (S " b ") (S " a ")) (S "Risk Reason") = trim (S " r ") :=
  ⟨claim_C2.1 _ (S "T") (S "") (S " hi ") (S "[U] x") rfl (by decide) (by decide)
      (Or.inr (by decide)),
   claim_C2.2.1 (S "hello") (S "T") (by decide),
   (claim_C2.2.2 (S "intro ") (S " 85 ") (S " Safe ") (S " r ") (S " m ") (S " f ") (S " e ")
      (S " k ") (S " b ") (S " a ") (by decide) (by decide) (by decide) (by decide) (by decide)
      (by decide) (by decide) (by decide) (by decide) (by decide)).2.2.1⟩

end MedVerify
